import Mathlib

/-!
Shallow embedding of `src/SFML/Window/WindowImpl.hpp`, the abstract base
class of SFML's per-OS window implementations: the listener registry, the
joystick poll/diff pass, the cached window size and the event pump.

The repository contains only the class declaration (member signatures and
member data).  The member data is authoritative — in particular the
listener registry is declared as `std::set<WindowListener*>`, an ordered
set keyed by pointer value — while the method bodies are modelled from the
specification; such definitions carry a `Modelled from the spec:` note.

Axis values and the joystick threshold are C `float`s in the source; they
are modelled as integers: the differ and clamp logic uses only comparison,
absolute difference, minimum and maximum, which are exact and
representation-independent.
-/

/-- Axis values and the joystick threshold (C `float` in the source). -/
abbrev Val := Int

/-- Number of joystick slots (`Joy::Count`, a compile-time constant;
the spec only requires a small fixed bound). -/
abbrev joyCount : Nat := 4

/-- Number of tracked axes per joystick slot (a compile-time constant). -/
abbrev axisCount : Nat := 7

/-- The events this file synthesizes (`sf::Event` restricted to the kinds
produced by the joystick poll/diff pass): connectivity edges and moves.
A move carries the device index, the axis identifier and the new value. -/
inductive Ev where
  | connect (joy : Fin joyCount)
  | disconnect (joy : Fin joyCount)
  | move (joy : Fin joyCount) (axis : Fin axisCount) (value : Val)
  deriving DecidableEq

/-- Whether an event is a connectivity (connect/disconnect) event. -/
def isConnEv : Ev → Bool
  | .connect _ => true
  | .disconnect _ => true
  | .move _ _ _ => false

/-- `JoystickState` (`myJoyStates` entries): last-observed connectivity and
the per-axis baseline (last accepted value) for one device slot. -/
structure SlotState where
  connected : Bool
  axes : Fin axisCount → Val

/-- One polled reading delivered by the device query layer for one slot. -/
structure Reading where
  connected : Bool
  axisPos : Fin axisCount → Val

/-- Modelled from the spec: the per-axis differ step of
`ProcessJoystickEvents` (body not in the repository).  Given the threshold,
the stored baseline and the newly polled value, it returns the optional
emitted move value and the new baseline: if the absolute difference is
strictly greater than the threshold the new value is emitted and becomes
the baseline, otherwise nothing is emitted and the baseline is unchanged. -/
def processAxis (th baseline v : Val) : Option Val × Val :=
  if th < |v - baseline| then (some v, v) else (none, baseline)

/-- Run the per-axis differ over a sequence of polled readings for one
axis, collecting the emitted move values. -/
def runAxis (th baseline : Val) : List Val → List Val
  | [] => []
  | v :: vs =>
    match processAxis th baseline v with
    | (some e, b2) => e :: runAxis th b2 vs
    | (none, b2) => runAxis th b2 vs

/-- Move events produced by diffing one connected slot's reading against
its stored state, one axis at a time in axis order. -/
def axisEvents (th : Val) (i : Fin joyCount) (st : SlotState) (r : Reading) :
    List Ev :=
  (List.finRange axisCount).filterMap fun a =>
    ((processAxis th (st.axes a) (r.axisPos a)).1).map fun v => Ev.move i a v

/-- New per-axis baselines after diffing one connected slot's reading. -/
def newAxes (th : Val) (st : SlotState) (r : Reading) : Fin axisCount → Val :=
  fun a => (processAxis th (st.axes a) (r.axisPos a)).2

/-- Modelled from the spec: the per-slot body of `ProcessJoystickEvents`
(body not in the repository).  Connectivity transitions are edge-triggered
and synthesize exactly one connect/disconnect event; a newly connected
slot seeds its baselines from the first reading without emitting move
events; a slot that stays connected is diffed axis by axis; a disconnected
slot keeps its stale baselines and emits nothing. -/
def pollSlot (th : Val) (i : Fin joyCount) (st : SlotState) (r : Reading) :
    SlotState × List Ev :=
  if r.connected then
    if st.connected then
      ({ connected := true, axes := newAxes th st r }, axisEvents th i st r)
    else
      ({ connected := true, axes := r.axisPos }, [Ev.connect i])
  else
    if st.connected then
      ({ connected := false, axes := st.axes }, [Ev.disconnect i])
    else
      (st, [])

/-- The listener registry `myListeners`, declared in the source as
`std::set<WindowListener*>`: an ordered set keyed by listener identity
(pointer value).  Modelled as a strictly sorted list of identities. -/
abbrev Registry := List Nat

/-- `AddListener` (body modelled from the spec and the declared
`std::set`): ordered insertion that keeps the registry duplicate-free;
inserting an already-registered listener leaves the registry unchanged. -/
def AddListener : Registry → Nat → Registry
  | [], l => [l]
  | x :: xs, l =>
    if l < x then l :: x :: xs
    else if l = x then x :: xs
    else x :: AddListener xs l

/-- `RemoveListener` (body modelled from the spec and the declared
`std::set`): erase the listener if present; removing an unregistered
listener is a no-op. -/
def RemoveListener : Registry → Nat → Registry
  | [], _ => []
  | x :: xs, l => if l = x then xs else x :: RemoveListener xs l

/-- Modelled from the spec: the delivery loop of `SendEvent` (body not in
the repository).  It iterates a snapshot of the registry taken at call
time; a listener still registered at its turn receives the event (its
callback `cb` may mutate the registry, e.g. add or remove listeners), a
listener that has been removed by the time its turn comes is skipped.
Returns the final registry and the delivery sequence. -/
def SendEventAux (cb : Nat → Registry → Registry) :
    List Nat → Registry → Registry × List Nat
  | [], reg => (reg, [])
  | l :: snap, reg =>
    if l ∈ reg then
      let res := SendEventAux cb snap (cb l reg)
      (res.1, l :: res.2)
    else
      SendEventAux cb snap reg

/-- `SendEvent`: deliver one event to the registered listeners,
snapshot-then-iterate over the registry. -/
def SendEvent (cb : Nat → Registry → Registry) (reg : Registry) :
    Registry × List Nat :=
  SendEventAux cb reg reg

/-- The window state: the member data of `WindowImpl` (header lines
222-247): cached client size, the listener registry, the joystick states
and the joystick threshold. -/
structure Window where
  myWidth : Nat
  myHeight : Nat
  myListeners : Registry
  myJoyStates : Fin joyCount → SlotState
  myJoyThreshold : Val

/-- `GetWidth`: return the cached client width. -/
def GetWidth (w : Window) : Nat := w.myWidth

/-- `GetHeight`: return the cached client height. -/
def GetHeight (w : Window) : Nat := w.myHeight

/-- `SetJoystickThreshold` (body modelled from the spec): clamp the
requested threshold to [0, 100] and store it; no error is signalled. -/
def SetJoystickThreshold (w : Window) (t : Val) : Window :=
  { w with myJoyThreshold := max 0 (min 100 t) }

/-- Trace markers for the phases of one `DoEvents` call: the
platform-specific OS-event drain and the joystick poll/diff pass. -/
inductive Phase where
  | osDrain (block : Bool)
  | devicePoll
  deriving DecidableEq

/-- The type of the platform-specific `ProcessEvents` hook (pure virtual
in the source): given the block flag and the window it reports an optional
new client size (a resize notification), the OS events it drained, and its
phase trace. -/
abbrev PlatformDrain :=
  Bool → Window → Option (Nat × Nat) × List Ev × List Phase

/-- Modelled from the spec: `ProcessJoystickEvents` (body not in the
repository).  Polls every slot in index order against the supplied
readings, updating each slot state and concatenating the emitted events
in index order.  The threshold, size and listener fields are untouched. -/
def ProcessJoystickEvents (readings : Fin joyCount → Reading) (w : Window) :
    Window × List Ev :=
  ({ w with
      myJoyStates := fun i =>
        (pollSlot w.myJoyThreshold i (w.myJoyStates i) (readings i)).1 },
   (List.finRange joyCount).foldr
     (fun i acc =>
       (pollSlot w.myJoyThreshold i (w.myJoyStates i) (readings i)).2 ++ acc)
     [])

/-- Apply an optional platform-reported resize notification to the cached
client size. -/
def applyResize : Option (Nat × Nat) → Window → Window
  | some sz, w => { w with myWidth := sz.1, myHeight := sz.2 }
  | none, w => w

/-- Modelled from the spec: `DoEvents` (body not in the repository).
First the platform OS-event drain runs (applying any resize notification
to the cached size), then the joystick poll/diff pass runs exactly once,
unconditionally.  Returns the new window, all events, and the phase
trace. -/
def DoEvents (pe : PlatformDrain) (block : Bool)
    (readings : Fin joyCount → Reading) (w : Window) :
    Window × List Ev × List Phase :=
  let r := pe block w
  let r2 := ProcessJoystickEvents readings (applyResize r.1 w)
  (r2.1, r.2.1 ++ r2.2, r.2.2 ++ [Phase.devicePoll])

/-- The operations that can touch a live window's state: the public
mutators, one event-pump cycle, and a platform-reported resize
notification. -/
inductive WinOp where
  | addListener (l : Nat)
  | removeListener (l : Nat)
  | setJoystickThreshold (t : Val)
  | doEvents (pe : PlatformDrain) (block : Bool)
      (readings : Fin joyCount → Reading)
  | resize (wd ht : Nat)

/-- One operation applied to the window state. -/
def stepOp (w : Window) : WinOp → Window
  | .addListener l => { w with myListeners := AddListener w.myListeners l }
  | .removeListener l => { w with myListeners := RemoveListener w.myListeners l }
  | .setJoystickThreshold t => SetJoystickThreshold w t
  | .doEvents pe block readings => (DoEvents pe block readings w).1
  | .resize wd ht => { w with myWidth := wd, myHeight := ht }

/-- An operation during which the platform layer reports no resize
notification (so the cached size must stay put). -/
def sizeStable : WinOp → Prop
  | .resize _ _ => False
  | .doEvents pe _ _ => ∀ b w, (pe b w).1 = none
  | _ => True

/-- Modelled from the spec: a freshly constructed window — zero size
("not yet sized"), empty registry, all slots disconnected, threshold
inside [0, 100]. -/
def mkWindow : Window :=
  { myWidth := 0
    myHeight := 0
    myListeners := []
    myJoyStates := fun _ => { connected := false, axes := fun _ => 0 }
    myJoyThreshold := 0 }

/-- A platform drain that reports no resize, no events, one drain phase. -/
def peNone : PlatformDrain := fun b _ => (none, [], [Phase.osDrain b])

/-- Readings reporting every slot disconnected. -/
def allDisconnected : Fin joyCount → Reading :=
  fun _ => { connected := false, axisPos := fun _ => 0 }

/-- Joystick slot 0. -/
def slot0 : Fin joyCount := ⟨0, by decide⟩

/-- A disconnected slot state with zeroed baselines. -/
def discSlotSt : SlotState := { connected := false, axes := fun _ => 0 }

/-- A reading reporting the slot connected with every axis at 50. -/
def connReading : Reading := { connected := true, axisPos := fun _ => 50 }

/-- A reading reporting the slot disconnected. -/
def discReading : Reading := { connected := false, axisPos := fun _ => 50 }

/-! ## Supporting lemmas -/

theorem processAxis_fst (th b v : Val) :
    (processAxis th b v).1 = if th < |v - b| then some v else none := by
  unfold processAxis; split <;> rfl

theorem processAxis_snd (th b v : Val) :
    (processAxis th b v).2 = if th < |v - b| then v else b := by
  unfold processAxis; split <;> rfl

theorem mem_AddListener (reg : Registry) (l m : Nat) :
    m ∈ AddListener reg l ↔ m = l ∨ m ∈ reg := by
  induction reg with
  | nil => simp [AddListener]
  | cons x xs ih =>
    by_cases h1 : l < x
    · simp [AddListener, h1]
    · by_cases h2 : l = x
      · subst h2; simp [AddListener, h1]
      · simp [AddListener, h1, h2, ih]; tauto

theorem AddListener_sorted (reg : Registry) (l : Nat)
    (hs : List.Sorted (· < ·) reg) :
    List.Sorted (· < ·) (AddListener reg l) := by
  induction reg with
  | nil => simp [AddListener]
  | cons x xs ih =>
    rw [List.sorted_cons] at hs
    by_cases h1 : l < x
    · rw [AddListener, if_pos h1, List.sorted_cons]
      refine ⟨?_, List.sorted_cons.mpr hs⟩
      intro b hb
      rcases List.mem_cons.mp hb with rfl | hb
      · exact h1
      · exact h1.trans (hs.1 b hb)
    · by_cases h2 : l = x
      · rw [AddListener, if_neg h1, if_pos h2]
        exact List.sorted_cons.mpr hs
      · rw [AddListener, if_neg h1, if_neg h2, List.sorted_cons]
        refine ⟨?_, ih hs.2⟩
        intro b hb
        rcases (mem_AddListener xs l b).mp hb with rfl | hb
        · exact lt_of_le_of_ne (not_lt.mp h1) fun e => h2 e.symm
        · exact hs.1 b hb

theorem AddListener_mem_eq (reg : Registry) (l : Nat)
    (hs : List.Sorted (· < ·) reg) (h : l ∈ reg) : AddListener reg l = reg := by
  induction reg with
  | nil => cases h
  | cons x xs ih =>
    rw [List.sorted_cons] at hs
    rcases List.mem_cons.mp h with rfl | h
    · rw [AddListener, if_neg (lt_irrefl l), if_pos rfl]
    · have hxl : x < l := hs.1 l h
      rw [AddListener, if_neg (not_lt.mpr hxl.le), if_neg hxl.ne', ih hs.2 h]

theorem RemoveListener_sublist (reg : Registry) (l : Nat) :
    List.Sublist (RemoveListener reg l) reg := by
  induction reg with
  | nil => simp [RemoveListener]
  | cons x xs ih =>
    by_cases h : l = x
    · rw [RemoveListener, if_pos h]
      exact (List.Sublist.refl xs).cons x
    · rw [RemoveListener, if_neg h]
      exact ih.cons₂ x

theorem RemoveListener_not_mem (reg : Registry) (l : Nat) (h : l ∉ reg) :
    RemoveListener reg l = reg := by
  induction reg with
  | nil => rfl
  | cons x xs ih =>
    have hne : l ≠ x := by rintro rfl; exact h (List.mem_cons_self l xs)
    rw [RemoveListener, if_neg hne, ih fun hx => h (List.mem_cons_of_mem x hx)]

theorem SendEventAux_sublist (cb : Nat → Registry → Registry)
    (snap : List Nat) (reg : Registry) :
    List.Sublist (SendEventAux cb snap reg).2 snap := by
  induction snap generalizing reg with
  | nil => simp [SendEventAux]
  | cons l snap ih =>
    by_cases h : l ∈ reg
    · rw [SendEventAux, if_pos h]
      exact (ih (cb l reg)).cons₂ l
    · rw [SendEventAux, if_neg h]
      exact (ih reg).cons l

theorem SendEventAux_not_mem (cb : Nat → Registry → Registry) (L : Nat)
    (hNoAdd : ∀ c r, L ∈ cb c r → L ∈ r) (snap : List Nat) (reg : Registry)
    (h : L ∉ reg) :
    L ∉ (SendEventAux cb snap reg).2 ∧ L ∉ (SendEventAux cb snap reg).1 := by
  induction snap generalizing reg with
  | nil => simpa [SendEventAux] using h
  | cons l snap ih =>
    by_cases hl : l ∈ reg
    · have h2 : L ∉ cb l reg := fun hc => h (hNoAdd l reg hc)
      have hrec := ih (cb l reg) h2
      rw [SendEventAux, if_pos hl]
      refine ⟨?_, hrec.2⟩
      intro hmem
      rcases List.mem_cons.mp hmem with rfl | hmem
      · exact h hl
      · exact hrec.1 hmem
    · rw [SendEventAux, if_neg hl]
      exact ih reg h

theorem SendEventAux_count (cb : Nat → Registry → Registry) (L : Nat)
    (hpres : ∀ c r, L ∈ r → L ∈ cb c r) (snap : List Nat) (reg : Registry)
    (h : L ∈ reg) :
    List.count L (SendEventAux cb snap reg).2 = List.count L snap := by
  induction snap generalizing reg with
  | nil => simp [SendEventAux]
  | cons l snap ih
  =>
    by_cases hl : l ∈ reg
    · rw [SendEventAux, if_pos hl]
      simp only [List.count_cons]
      rw [ih (cb l reg) (hpres l reg h)]
    · have hne : l ≠ L := by rintro rfl; exact hl h
      rw [SendEventAux, if_neg hl, List.count_cons]
      simp [hne, ih reg h]

theorem SendEventAux_id (cb : Nat → Registry → Registry)
    (hid : ∀ c r, cb c r = r) (snap : List Nat) (reg : Registry) :
    SendEventAux cb snap reg =
      (reg, snap.filter fun l => decide (l ∈ reg)) := by
  induction snap generalizing reg with
  | nil => simp [SendEventAux]
  | cons l snap ih =>
    by_cases hl : l ∈ reg
    · rw [SendEventAux, if_pos hl, hid, ih]
      simp [List.filter_cons, hl]
    · rw [SendEventAux, if_neg hl, ih]
      simp [List.filter_cons, hl]

theorem applyResize_fields (o : Option (Nat × Nat)) (w : Window) :
    (applyResize o w).myJoyThreshold = w.myJoyThreshold ∧
    (applyResize o w).myListeners = w.myListeners ∧
    (applyResize o w).myJoyStates = w.myJoyStates := by
  cases o <;> exact ⟨rfl, rfl, rfl⟩

theorem ProcessJoystickEvents_fields (readings : Fin joyCount → Reading)
    (w : Window) :
    (ProcessJoystickEvents readings w).1.myWidth = w.myWidth ∧
    (ProcessJoystickEvents readings w).1.myHeight = w.myHeight ∧
    (ProcessJoystickEvents readings w).1.myJoyThreshold = w.myJoyThreshold ∧
    (ProcessJoystickEvents readings w).1.myListeners = w.myListeners :=
  ⟨rfl, rfl, rfl, rfl⟩

theorem DoEvents_myJoyThreshold (pe : PlatformDrain) (block : Bool)
    (readings : Fin joyCount → Reading) (w : Window) :
    (DoEvents pe block readings w).1.myJoyThreshold = w.myJoyThreshold := by
  show (ProcessJoystickEvents readings
    (applyResize (pe block w).1 w)).1.myJoyThreshold = w.myJoyThreshold
  rw [(ProcessJoystickEvents_fields _ _).2.2.1,
    (applyResize_fields (pe block w).1 w).1]

theorem stepOp_myJoyThreshold_inv (w : Window) (op : WinOp)
    (h0 : 0 ≤ w.myJoyThreshold) (h1 : w.myJoyThreshold ≤ 100) :
    0 ≤ (stepOp w op).myJoyThreshold ∧ (stepOp w op).myJoyThreshold ≤ 100 := by
  cases op with
  | addListener l => exact ⟨h0, h1⟩
  | removeListener l => exact ⟨h0, h1⟩
  | resize wd ht => exact ⟨h0, h1⟩
  | setJoystickThreshold t =>
    refine ⟨le_max_left 0 _, max_le (by norm_num) (min_le_left 100 t)⟩
  | doEvents pe block readings =>
    show 0 ≤ (DoEvents pe block readings w).1.myJoyThreshold ∧
      (DoEvents pe block readings w).1.myJoyThreshold ≤ 100
    rw [DoEvents_myJoyThreshold]
    exact ⟨h0, h1⟩

theorem stepOp_size_stable (w : Window) (op : WinOp) (h : sizeStable op) :
    (stepOp w op).myWidth = w.myWidth ∧
    (stepOp w op).myHeight = w.myHeight := by
  cases op with
  | addListener l => exact ⟨rfl, rfl⟩
  | removeListener l => exact ⟨rfl, rfl⟩
  | setJoystickThreshold t => exact ⟨rfl, rfl⟩
  | resize wd ht => cases h
  | doEvents pe block readings =>
    have hn : (pe block w).1 = none := h block w
    show (DoEvents pe block readings w).1.myWidth = w.myWidth ∧
      (DoEvents pe block readings w).1.myHeight = w.myHeight
    show (ProcessJoystickEvents readings
        (applyResize (pe block w).1 w)).1.myWidth = w.myWidth ∧
      (ProcessJoystickEvents readings
        (applyResize (pe block w).1 w)).1.myHeight = w.myHeight
    rw [(ProcessJoystickEvents_fields _ _).1,
      (ProcessJoystickEvents_fields _ _).2.1, hn]
    exact ⟨rfl, rfl⟩

theorem foldl_size_stable (ops : List WinOp) (w : Window)
    (h : ∀ op ∈ ops, sizeStable op) :
    (List.foldl stepOp w ops).myWidth = w.myWidth ∧
    (List.foldl stepOp w ops).myHeight = w.myHeight := by
  induction ops generalizing w with
  | nil => exact ⟨rfl, rfl⟩
  | cons op ops ih =>
    have h1 := stepOp_size_stable w op (h op (List.mem_cons_self op ops))
    have h2 := ih (stepOp w op) fun o ho => h o (List.mem_cons_of_mem op ho)
    rw [List.foldl_cons]
    exact ⟨h2.1.trans h1.1, h2.2.trans h1.2⟩

theorem axisEvents_no_conn (th : Val) (i : Fin joyCount) (st : SlotState)
    (r : Reading) : (axisEvents th i st r).filter isConnEv = [] := by
  rw [List.filter_eq_nil_iff]
  intro e he
  rw [axisEvents, List.mem_filterMap] at he
  obtain ⟨a, _, ha⟩ := he
  cases hp : (processAxis th (st.axes a) (r.axisPos a)).1 with
  | none => rw [hp] at ha; cases ha
  | some v => rw [hp] at ha; cases ha; simp [isConnEv]

theorem mem_axisEvents (th : Val) (i : Fin joyCount) (st : SlotState)
    (r : Reading) (a : Fin axisCount) :
    (Ev.move i a (r.axisPos a) ∈ axisEvents th i st r ↔
      th < |r.axisPos a - st.axes a|) := by
  rw [axisEvents]
  constructor
  · intro hm
    rw [List.mem_filterMap] at hm
    obtain ⟨a2, _, ha2⟩ := hm
    cases hp : (processAxis th (st.axes a2) (r.axisPos a2)).1 with
    | none => rw [hp] at ha2; cases ha2
    | some v =>
      rw [hp] at ha2
      rw [processAxis_fst] at hp
      cases ha2
      by_contra hlt
      rw [if_neg hlt] at hp
      cases hp
  · intro hlt
    rw [List.mem_filterMap]
    refine ⟨a, List.mem_finRange a, ?_⟩
    rw [processAxis_fst, if_pos hlt]
    rfl

/-- Axis 0 of a joystick slot. -/
def axis0 : Fin axisCount := ⟨0, by decide⟩

/-- A sample operation sequence containing no resize notification. -/
def opsSample : List WinOp :=
  [WinOp.addListener 1, WinOp.setJoystickThreshold 42,
   WinOp.doEvents peNone false allDisconnected, WinOp.removeListener 1]

/-! ## The claims -/

/-- C1: for every slot, axis and polled reading of a connected device, the
device-state differ emits a move event exactly when the absolute
difference between the new axis value and the stored baseline is strictly
greater than the threshold (a change of exactly the threshold emits
nothing), the emitted event carries the new value, and the baseline
advances to the new value exactly when an event is emitted, otherwise it
is unchanged; with threshold 10 and baseline 0 the reading sequence
5, 12, 14, 30 emits exactly the move values 12 and 30. -/
theorem claim1_differ_semantics (th b v : Val) (i : Fin joyCount)
    (bl pos : Fin axisCount → Val) (a : Fin axisCount) :
    ((processAxis th b v).1 = some v ↔ th < |v - b|) ∧
    ((processAxis th b v).1 = none ↔ |v - b| ≤ th) ∧
    ((processAxis th b v).2 = if th < |v - b| then v else b) ∧
    (Ev.move i a (pos a) ∈
      (pollSlot th i ⟨true, bl⟩ ⟨true, pos⟩).2 ↔ th < |pos a - bl a|) ∧
    ((pollSlot th i ⟨true, bl⟩ ⟨true, pos⟩).1.axes a =
      if th < |pos a - bl a| then pos a else bl a) ∧
    runAxis 10 0 [5, 12, 14, 30] = [12, 30] := by
  refine ⟨?_, ?_, processAxis_snd th b v, ?_, ?_, by decide⟩
  · rw [processAxis_fst]
    constructor
    · intro h
      by_contra hlt
      rw [if_neg hlt] at h
      cases h
    · intro h; rw [if_pos h]
  · rw [processAxis_fst]
    constructor
    · intro h
      by_contra hle
      rw [not_le] at hle
      rw [if_pos hle] at h
      cases h
    · intro h; rw [if_neg (not_lt.mpr h)]
  · have hred : (pollSlot th i ⟨true, bl⟩ ⟨true, pos⟩).2 =
        axisEvents th i ⟨true, bl⟩ ⟨true, pos⟩ := by
      simp [pollSlot]
    rw [hred]
    exact mem_axisEvents th i ⟨true, bl⟩ ⟨true, pos⟩ a
  · have hred : (pollSlot th i ⟨true, bl⟩ ⟨true, pos⟩).1 =
        ⟨true, newAxes th ⟨true, bl⟩ ⟨true, pos⟩⟩ := by
      simp [pollSlot]
    rw [hred]
    exact processAxis_snd th (bl a) (pos a)

/-- C2: during a `SendEvent` delivery pass, a listener that is absent from
the registry (for instance removed by an earlier callback of the pass, the
callbacks never re-adding it) receives no delivery for the remainder of
the pass and is absent from the final registry, hence receives no
subsequent event either; and a listener neither added nor removed by any
callback of the pass receives the event exactly once — unaffected
listeners are neither skipped nor double-delivered. -/
theorem claim2_removal_during_delivery (cb : Nat → Registry → Registry)
    (L : Nat) (hNoAdd : ∀ c r, L ∈ cb c r → L ∈ r) :
    (∀ snap reg, L ∉ reg →
      L ∉ (SendEventAux cb snap reg).2 ∧ L ∉ (SendEventAux cb snap reg).1) ∧
    (∀ reg, reg.Nodup → (∀ c r, L ∈ r → L ∈ cb c r) → L ∈ reg →
      List.count L (SendEvent cb reg).2 = 1) := by
  refine ⟨fun snap reg h => SendEventAux_not_mem cb L hNoAdd snap reg h,
    fun reg hnd hpres hmem => ?_⟩
  rw [SendEvent, SendEventAux_count cb L hpres reg reg hmem]
  exact List.count_eq_one_of_mem hnd hmem

/-- C2 witness: with callbacks that leave the registry unchanged, listener
3 of the registry [1, 3, 7] is delivered to exactly once. -/
theorem claim2_witness :
    List.count 3 (SendEvent (fun _ r => r) [1, 3, 7]).2 = 1 :=
  (claim2_removal_during_delivery (fun _ r => r) 3 fun _ _ h => h).2
    [1, 3, 7] (by decide) (fun _ _ h => h) (by decide)

/-- C3 counterexample: register listener 2, then listener 1; the
registration order is [2, 1], but the `SendEvent` delivery order is
[1, 2] — the key order of the `std::set` registry — so delivery is not in
registration order. -/
theorem claim3_counterexample :
    AddListener (AddListener [] 2) 1 = [1, 2] ∧
    (SendEvent (fun _ r => r) (AddListener (AddListener [] 2) 1)).2 =
      [1, 2] ∧
    (SendEvent (fun _ r => r) (AddListener (AddListener [] 2) 1)).2 ≠
      [2, 1] := by
  decide

/-- C3 amended: `SendEvent` delivers to the registered listeners in
ascending listener-identity order — the iteration order of the `std::set`
registry — not in registration order; the delivery sequence is an ordered
subsequence of the registry snapshot, so the order used within a
`SendEvent` call is the one deterministic order fixed by the registry
contents. -/
theorem claim3_amended_identity_order (cb : Nat → Registry → Registry)
    (reg : Registry) (hs : List.Sorted (· < ·) reg) :
    List.Sublist (SendEvent cb reg).2 reg ∧
    List.Sorted (· < ·) (SendEvent cb reg).2 :=
  ⟨SendEventAux_sublist cb reg reg,
   List.Pairwise.sublist (SendEventAux_sublist cb reg reg) hs⟩

/-- C3 witness: delivery over the registry [1, 2, 3] is an ordered
subsequence of it. -/
theorem claim3_witness :
    List.Sublist (SendEvent (fun _ r => r) [1, 2, 3]).2 [1, 2, 3] ∧
    List.Sorted (· < ·) (SendEvent (fun _ r => r) [1, 2, 3]).2 :=
  claim3_amended_identity_order (fun _ r => r) [1, 2, 3] (by decide)

/-- C4: `SetJoystickThreshold` stores the clamp of its argument to
[0, 100] (silently — it just returns the updated window), the initial
window's threshold lies in [0, 100], and every window operation keeps the
stored threshold inside [0, 100]. -/
theorem claim4_threshold_clamped :
    (∀ w t, (SetJoystickThreshold w t).myJoyThreshold =
      max 0 (min 100 t)) ∧
    (0 ≤ mkWindow.myJoyThreshold ∧ mkWindow.myJoyThreshold ≤ 100) ∧
    (∀ w op, 0 ≤ w.myJoyThreshold → w.myJoyThreshold ≤ 100 →
      0 ≤ (stepOp w op).myJoyThreshold ∧
        (stepOp w op).myJoyThreshold ≤ 100) :=
  ⟨fun _ _ => rfl, ⟨by decide, by decide⟩,
   fun w op h0 h1 => stepOp_myJoyThreshold_inv w op h0 h1⟩

/-- C4 witness: setting the out-of-range threshold 250 on a fresh window
leaves the stored threshold inside [0, 100]. -/
theorem claim4_witness :
    0 ≤ (stepOp mkWindow (WinOp.setJoystickThreshold 250)).myJoyThreshold ∧
    (stepOp mkWindow (WinOp.setJoystickThreshold 250)).myJoyThreshold ≤
      100 :=
  claim4_threshold_clamped.2.2 mkWindow (WinOp.setJoystickThreshold 250)
    (by decide) (by decide)

/-- C5: on a registry in its ordered-set invariant, adding an
already-registered listener leaves the registry unchanged (so later events
are delivered to it once, not twice), removing an unregistered listener is
a no-op signalling nothing, and the registry never contains duplicates
after either operation. -/
theorem claim5_registry_idempotent (reg : Registry) (l : Nat)
    (hs : List.Sorted (· < ·) reg) :
    (l ∈ reg → AddListener reg l = reg) ∧
    (l ∉ reg → RemoveListener reg l = reg) ∧
    (AddListener reg l).Nodup ∧ (RemoveListener reg l).Nodup :=
  ⟨AddListener_mem_eq reg l hs, RemoveListener_not_mem reg l,
   (AddListener_sorted reg l hs).nodup,
   List.Nodup.sublist (RemoveListener_sublist reg l) hs.nodup⟩

/-- C5 witness: re-adding the registered listener 3 leaves [1, 3]
unchanged, removing the unregistered listener 2 leaves [1, 3] unchanged,
and the registry stays duplicate-free. -/
theorem claim5_witness :
    AddListener [1, 3] 3 = [1, 3] ∧ RemoveListener [1, 3] 2 = [1, 3] ∧
    (AddListener [1, 3] 3).Nodup :=
  ⟨(claim5_registry_idempotent [1, 3] 3 (by decide)).1 (by decide),
   (claim5_registry_idempotent [1, 3] 2 (by decide)).2.1 (by decide),
   (claim5_registry_idempotent [1, 3] 3 (by decide)).2.2.1⟩

/-- C6: every `DoEvents` call — blocking or not, with or without OS
events — runs the joystick poll/diff pass exactly once, after the platform
OS-event drain. -/
theorem claim6_poll_unconditional (pe : PlatformDrain) (block : Bool)
    (readings : Fin joyCount → Reading) (w : Window)
    (h : ∀ b w2, Phase.devicePoll ∉ (pe b w2).2.2) :
    (DoEvents pe block readings w).2.2 =
      (pe block w).2.2 ++ [Phase.devicePoll] ∧
    List.count Phase.devicePoll (DoEvents pe block readings w).2.2 = 1 := by
  refine ⟨rfl, ?_⟩
  show List.count Phase.devicePoll
    ((pe block w).2.2 ++ [Phase.devicePoll]) = 1
  rw [List.count_append, List.count_eq_zero.mpr (h block w)]
  simp

/-- C6 witness: a blocking `DoEvents` over an eventless platform drain
runs the device poll exactly once, after the drain. -/
theorem claim6_witness :
    (DoEvents peNone true allDisconnected mkWindow).2.2 =
      (peNone true mkWindow).2.2 ++ [Phase.devicePoll] ∧
    List.count Phase.devicePoll
      (DoEvents peNone true allDisconnected mkWindow).2.2 = 1 :=
  claim6_poll_unconditional peNone true allDisconnected mkWindow
    (fun b w2 => by simp [peNone])

/-- C7: connectivity changes are edge-triggered — a poll pass over a slot
emits exactly one connectivity event when the polled connectivity differs
from the stored one and none otherwise; and from a disconnected slot, a
connected reading followed by a disconnected one emits exactly the
connect event then the disconnect event (two connectivity events and no
more, no move events), the first post-reconnect reading seeding the
per-axis baselines. -/
theorem claim7_connectivity_edges (th : Val) (i : Fin joyCount) :
    (∀ st r, ((pollSlot th i st r).2.filter isConnEv).length =
      if r.connected = st.connected then 0 else 1) ∧
    (∀ st r1 r2, st.connected = false → r1.connected = true →
      r2.connected = false →
      (pollSlot th i st r1).2 = [Ev.connect i] ∧
      (pollSlot th i st r1).1.axes = r1.axisPos ∧
      (pollSlot th i (pollSlot th i st r1).1 r2).2 = [Ev.disconnect i]) := by
  constructor
  · rintro ⟨sc, ax⟩ ⟨rc, pos⟩
    cases sc <;> cases rc <;>
      simp [pollSlot, isConnEv, axisEvents_no_conn]
  · rintro ⟨sc, ax⟩ ⟨rc1, pos1⟩ ⟨rc2, pos2⟩ h1 h2 h3
    simp only at h1 h2 h3
    subst h1; subst h2; subst h3
    refine ⟨?_, ?_, ?_⟩ <;> simp [pollSlot]

/-- C7 witness: slot 0, disconnected with zeroed baselines, polled
connected at 50 then disconnected: one connect event with the baselines
seeded to 50, then one disconnect event. -/
theorem claim7_witness :
    (pollSlot 10 slot0 discSlotSt connReading).2 = [Ev.connect slot0] ∧
    (pollSlot 10 slot0 discSlotSt connReading).1.axes =
      connReading.axisPos ∧
    (pollSlot 10 slot0 (pollSlot 10 slot0 discSlotSt connReading).1
      discReading).2 = [Ev.disconnect slot0] :=
  (claim7_connectivity_edges 10 slot0).2 discSlotSt connReading discReading
    rfl rfl rfl

/-- C8: a slot that is disconnected — in its stored status or in the
polled reading — produces no move event whatever axis data is read, and
while the reading reports it disconnected its stale baselines are left
untouched (they are not compared against new readings). -/
theorem claim8_disconnected_no_move (th : Val) (i : Fin joyCount)
    (st : SlotState) (r : Reading)
    (h : st.connected = false ∨ r.connected = false) :
    (∀ a v, Ev.move i a v ∉ (pollSlot th i st r).2) ∧
    (r.connected = false → (pollSlot th i st r).1.axes = st.axes) := by
  obtain ⟨sc, ax⟩ := st
  obtain ⟨rc, pos⟩ := r
  simp only at h
  constructor
  · intro a v
    cases rc with
    | false => cases sc <;> simp [pollSlot]
    | true =>
      have hsc : sc = false := by
        rcases h with h | h
        · exact h
        · simp at h
      subst hsc
      simp [pollSlot]
  · intro h2
    simp only at h2
    subst h2
    cases sc <;> simp [pollSlot]

/-- C8 witness: a disconnected slot polled with a disconnected reading at
axis value 50 emits no move event for axis 0 and value 50. -/
theorem claim8_witness :
    Ev.move slot0 axis0 50 ∉ (pollSlot 10 slot0 discSlotSt discReading).2 :=
  (claim8_disconnected_no_move 10 slot0 discSlotSt discReading
    (Or.inl rfl)).1 axis0 50

/-- C9: `GetWidth`/`GetHeight` return the cached size fields — pure, total
accessors of the state; a platform resize notification sets the cache to
the reported values; and a sequence of operations during which the
platform reports no resize leaves both unchanged, so between two resize
notifications every call returns the same, last-reported value. -/
theorem claim9_size_cached :
    (∀ w, GetWidth w = w.myWidth ∧ GetHeight w = w.myHeight) ∧
    (∀ w wd ht, GetWidth (stepOp w (WinOp.resize wd ht)) = wd ∧
      GetHeight (stepOp w (WinOp.resize wd ht)) = ht) ∧
    (∀ w ops, (∀ op ∈ ops, sizeStable op) →
      GetWidth (List.foldl stepOp w ops) = GetWidth w ∧
      GetHeight (List.foldl stepOp w ops) = GetHeight w) :=
  ⟨fun _ => ⟨rfl, rfl⟩, fun _ _ _ => ⟨rfl, rfl⟩,
   fun w ops h => foldl_size_stable ops w h⟩

/-- C9 witness: after a platform-reported resize to 800×600, a pump
cycle, listener changes and a threshold change leave the cached size at
the last reported value. -/
theorem claim9_witness :
    GetWidth (List.foldl stepOp (stepOp mkWindow (WinOp.resize 800 600))
      opsSample) = GetWidth (stepOp mkWindow (WinOp.resize 800 600)) ∧
    GetHeight (List.foldl stepOp (stepOp mkWindow (WinOp.resize 800 600))
      opsSample) = GetHeight (stepOp mkWindow (WinOp.resize 800 600)) :=
  claim9_size_cached.2.2 (stepOp mkWindow (WinOp.resize 800 600)) opsSample
    (by
      intro op hop
      simp only [opsSample, List.mem_cons, List.not_mem_nil, or_false] at hop
      rcases hop with rfl | rfl | rfl | rfl <;> simp [sizeStable, peNone])

/-- C10: the delivery order of `SendEvent` is a function of the registry
contents alone — two passes over the same registry whose callbacks leave
the registry unmodified deliver in the identical order and leave the
registry unchanged, so for fixed registry contents the order is identical
across calls, not merely within one call. -/
theorem claim10_cross_call_order (cb1 cb2 : Nat → Registry → Registry)
    (reg : Registry) (h1 : ∀ c r, cb1 c r = r) (h2 : ∀ c r, cb2 c r = r) :
    (SendEvent cb1 reg).2 = (SendEvent cb2 reg).2 ∧
    (SendEvent cb1 reg).1 = reg := by
  rw [SendEvent, SendEvent, SendEventAux_id cb1 h1 reg reg,
    SendEventAux_id cb2 h2 reg reg]
  exact ⟨rfl, rfl⟩

/-- C10 witness: two registry-preserving passes over [2, 5] deliver in
the same order and leave the registry unchanged. -/
theorem claim10_witness :
    (SendEvent (fun _ r => r) [2, 5]).2 =
      (SendEvent (fun _ r => id r) [2, 5]).2 ∧
    (SendEvent (fun _ r => r) [2, 5]).1 = [2, 5] :=
  claim10_cross_call_order (fun _ r => r) (fun _ r => id r) [2, 5]
    (fun _ _ => rfl) (fun _ _ => rfl)
